import Mathlib

/-!
Verification of the parameter-serialization layer and request dispatcher of
the etherscan-rs client (src/lib.rs), as a shallow embedding in Lean.

Machine integers (`i64`) are modelled as `Int` (no arithmetic that could
overflow is performed on them by the code under study: they are only stored
and serialized).  Rust `&str` fields are modelled as `String`.
-/

namespace Etherscan

/-- Base URL constants (src/lib.rs lines 6-8). -/
def API_URL : String := "https://api.etherscan.io/api"

def GOERLI_API_URL : String := "https://api-goerli.etherscan.io/api"

def SEPOLIA_API_URL : String := "https://api-sepolia.etherscan.io/api"

/-- `struct BaseApiRequest` (src/lib.rs lines 12-17). -/
structure BaseApiRequest where
  module : String
  action : String
  apikey : String
deriving DecidableEq, Repr

/-- `struct AddressTagQuery` (src/lib.rs lines 21-25). -/
structure AddressTagQuery where
  address : String
  tag : String
deriving DecidableEq, Repr

/-- `struct TokenEventsPaginatedQuery` (src/lib.rs lines 51-60). -/
structure TokenEventsPaginatedQuery where
  address : String
  contractaddress : String
  page : Int
  offset : Int
  startblock : Int
  endblock : Int
  sort : String
deriving DecidableEq, Repr

/-- `struct ContractAddressesQuery` (src/lib.rs lines 234-237). -/
structure ContractAddressesQuery where
  contractaddresses : String
deriving DecidableEq, Repr

/-- `struct ContractByAddressQuery` (src/lib.rs lines 239-243). -/
structure ContractByAddressQuery where
  address : String
  contractaddress : String
deriving DecidableEq, Repr

/-- `struct EventLogTopicPaginatedQuery` (src/lib.rs lines 140-153),
fields in Rust declaration order. -/
structure EventLogTopicPaginatedQuery where
  fromblock : Int
  toblock : Int
  topic0 : String
  topic1 : String
  topic2 : String
  topic3 : String
  topic0_1_opr : String
  topic1_2_opr : String
  topic2_3_opr : String
  page : Int
  offset : Int
deriving DecidableEq, Repr

/-- One element of the serialized sequence produced by the custom
`Serialize` impl for `EventLogTopicPaginatedQuery`.  Each constructor
corresponds to one `seq.serialize_element(&self.X)` call site, carrying the
serialized value. -/
inductive LogElem where
  | fromblock (v : Int)
  | toblock (v : Int)
  | topic0 (v : String)
  | topic1 (v : String)
  | topic0_1_opr (v : String)
  | topic2 (v : String)
  | topic1_2_opr (v : String)
  | topic3 (v : String)
  | topic2_3_opr (v : String)
  | page (v : Int)
  | offset (v : Int)
deriving DecidableEq, Repr

/-- The custom `impl Serialize for EventLogTopicPaginatedQuery`
(src/lib.rs lines 155-179): `fromblock`, `toblock`, `topic0` are emitted
unconditionally; each of `topic1`/`topic2`/`topic3` is emitted, immediately
followed by its boundary operator, iff that topic is a non-empty string;
`page` and `offset` are emitted last. -/
def EventLogTopicPaginatedQuery.serialize (q : EventLogTopicPaginatedQuery) :
    List LogElem :=
  [LogElem.fromblock q.fromblock, LogElem.toblock q.toblock, LogElem.topic0 q.topic0]
    ++ (if q.topic1 ≠ "" then [LogElem.topic1 q.topic1, LogElem.topic0_1_opr q.topic0_1_opr] else [])
    ++ (if q.topic2 ≠ "" then [LogElem.topic2 q.topic2, LogElem.topic1_2_opr q.topic1_2_opr] else [])
    ++ (if q.topic3 ≠ "" then [LogElem.topic3 q.topic3, LogElem.topic2_3_opr q.topic2_3_opr] else [])
    ++ [LogElem.page q.page, LogElem.offset q.offset]

/-- A concrete query with all four topics non-empty, used to exhibit the
actual element count of the encoder. -/
def qAllTopics : EventLogTopicPaginatedQuery :=
  { fromblock := 0, toblock := 99, topic0 := "0xaaa", topic1 := "0xbbb",
    topic2 := "0xccc", topic3 := "0xddd", topic0_1_opr := "and",
    topic1_2_opr := "or", topic2_3_opr := "and", page := 1, offset := 10 }

/-- A second concrete all-topics query (different field values). -/
def qAllTopicsB : EventLogTopicPaginatedQuery :=
  { fromblock := 5, toblock := 7, topic0 := "t0", topic1 := "t1",
    topic2 := "t2", topic3 := "t3", topic0_1_opr := "or",
    topic1_2_opr := "and", topic2_3_opr := "or", page := 2, offset := 3 }

/-- C1 (counterexample): with all four topics non-empty the encoder emits
11 elements, not 9 as claimed: each of the three optional topics adds two
elements on top of the five unconditional ones. -/
theorem c1_all_topics_emits_eleven :
    qAllTopics.topic0 ≠ "" ∧ qAllTopics.topic1 ≠ "" ∧
    qAllTopics.topic2 ≠ "" ∧ qAllTopics.topic3 ≠ "" ∧
    qAllTopics.serialize.length = 11 ∧ ¬ qAllTopics.serialize.length = 9 := by
  decide

/-- C1 (amended): given `(t0, "", "", "")` with `t0` non-empty the encoder
emits exactly the 5 elements `fromblock, toblock, topic0, page, offset` in
that order; given `(t0, t1, "", "")` it emits exactly 7 elements with
`topic1` followed immediately by `topic0_1_opr`; given all four topics
non-empty it emits exactly 11 elements, each optional topic followed
immediately by its boundary operator. -/
theorem c1_topic_chain_encoding (q : EventLogTopicPaginatedQuery)
    (h0 : q.topic0 ≠ "") :
    (q.topic1 = "" → q.topic2 = "" → q.topic3 = "" →
      q.serialize = [LogElem.fromblock q.fromblock, LogElem.toblock q.toblock,
        LogElem.topic0 q.topic0, LogElem.page q.page, LogElem.offset q.offset]) ∧
    (q.topic1 ≠ "" → q.topic2 = "" → q.topic3 = "" →
      q.serialize = [LogElem.fromblock q.fromblock, LogElem.toblock q.toblock,
        LogElem.topic0 q.topic0, LogElem.topic1 q.topic1,
        LogElem.topic0_1_opr q.topic0_1_opr,
        LogElem.page q.page, LogElem.offset q.offset]) ∧
    (q.topic1 ≠ "" → q.topic2 ≠ "" → q.topic3 ≠ "" →
      q.serialize = [LogElem.fromblock q.fromblock, LogElem.toblock q.toblock,
        LogElem.topic0 q.topic0, LogElem.topic1 q.topic1,
        LogElem.topic0_1_opr q.topic0_1_opr, LogElem.topic2 q.topic2,
        LogElem.topic1_2_opr q.topic1_2_opr, LogElem.topic3 q.topic3,
        LogElem.topic2_3_opr q.topic2_3_opr,
        LogElem.page q.page, LogElem.offset q.offset]) := by
  refine ⟨fun h1 h2 h3 => ?_, fun h1 h2 h3 => ?_, fun h1 h2 h3 => ?_⟩ <;>
    simp [EventLogTopicPaginatedQuery.serialize, h1, h2, h3]

/-- C1 (witness): the amended encoding theorem applied at three concrete
queries, one per arity case. -/
theorem c1_topic_chain_encoding_witness :
    ({ qAllTopics with topic1 := "", topic2 := "", topic3 := "" }).serialize =
      [LogElem.fromblock 0, LogElem.toblock 99, LogElem.topic0 "0xaaa",
       LogElem.page 1, LogElem.offset 10] ∧
    ({ qAllTopics with topic2 := "", topic3 := "" }).serialize =
      [LogElem.fromblock 0, LogElem.toblock 99, LogElem.topic0 "0xaaa",
       LogElem.topic1 "0xbbb", LogElem.topic0_1_opr "and",
       LogElem.page 1, LogElem.offset 10] ∧
    qAllTopics.serialize =
      [LogElem.fromblock 0, LogElem.toblock 99, LogElem.topic0 "0xaaa",
       LogElem.topic1 "0xbbb", LogElem.topic0_1_opr "and",
       LogElem.topic2 "0xccc", LogElem.topic1_2_opr "or",
       LogElem.topic3 "0xddd", LogElem.topic2_3_opr "and",
       LogElem.page 1, LogElem.offset 10] :=
  ⟨(c1_topic_chain_encoding _ (by decide)).1 (by decide) (by decide) (by decide),
   (c1_topic_chain_encoding _ (by decide)).2.1 (by decide) (by decide) (by decide),
   (c1_topic_chain_encoding _ (by decide)).2.2 (by decide) (by decide) (by decide)⟩

/-- C2: for every query, the boundary operator field `topic{i}_{i+1}_opr`
appears in the emitted sequence iff the topic after that boundary
(`topic{i+1}`) is a non-empty string, independently of the topic before
the boundary. -/
theorem c2_operator_iff_next_topic (q : EventLogTopicPaginatedQuery) :
    ((∃ v, LogElem.topic0_1_opr v ∈ q.serialize) ↔ q.topic1 ≠ "") ∧
    ((∃ v, LogElem.topic1_2_opr v ∈ q.serialize) ↔ q.topic2 ≠ "") ∧
    ((∃ v, LogElem.topic2_3_opr v ∈ q.serialize) ↔ q.topic3 ≠ "") := by
  by_cases h1 : q.topic1 = "" <;> by_cases h2 : q.topic2 = "" <;>
    by_cases h3 : q.topic3 = "" <;>
    simp [EventLogTopicPaginatedQuery.serialize, h1, h2, h3]

/-- C3 (counterexample): an input whose emitted sequence has 11 elements,
a length outside the claimed set `{3, 5, 7, 9}`. -/
theorem c3_length_outside_claimed_set :
    qAllTopicsB.serialize.length ∉ ([3, 5, 7, 9] : List Nat) := by
  decide

/-- C3 (amended): the encoder's possible output lengths are exactly
`{5, 7, 9, 11}`: every output has one of these lengths (never 3: the five
fields `fromblock, toblock, topic0, page, offset` are unconditional), and
each of the four lengths is attained by some input. -/
theorem c3_length_range :
    (∀ q : EventLogTopicPaginatedQuery,
      q.serialize.length ∈ ([5, 7, 9, 11] : List Nat)) ∧
    (∃ q : EventLogTopicPaginatedQuery, q.serialize.length = 5) ∧
    (∃ q : EventLogTopicPaginatedQuery, q.serialize.length = 7) ∧
    (∃ q : EventLogTopicPaginatedQuery, q.serialize.length = 9) ∧
    (∃ q : EventLogTopicPaginatedQuery, q.serialize.length = 11) := by
  refine ⟨fun q => ?_, ⟨{ qAllTopicsB with topic1 := "", topic2 := "", topic3 := "" }, by decide⟩,
    ⟨{ qAllTopicsB with topic2 := "", topic3 := "" }, by decide⟩,
    ⟨{ qAllTopicsB with topic3 := "" }, by decide⟩, ⟨qAllTopicsB, by decide⟩⟩
  by_cases h1 : q.topic1 = "" <;> by_cases h2 : q.topic2 = "" <;>
    by_cases h3 : q.topic3 = "" <;>
    simp [EventLogTopicPaginatedQuery.serialize, h1, h2, h3]

/-! ## Request dispatcher (`AsyncClient`, src/lib.rs lines 312-349)

The HTTP transport is external; what the code under study determines is the
request that is sent: the URL and the two query components (base fields
first, then the endpoint parameter record).  `AsyncClient.get` is embedded
as the construction of that request. -/

/-- The request constructed by `AsyncClient::get` before being handed to
the HTTP transport: the fixed URL and the two query components. -/
structure HttpGetRequest (α : Type) where
  url : String
  base : BaseApiRequest
  params : α
deriving DecidableEq, Repr

/-- `struct AsyncClient` (src/lib.rs lines 312-315); the HTTP client handle
carries no data relevant to request construction. -/
structure AsyncClient where
  api_key : String
deriving DecidableEq, Repr

/-- Request construction performed by `AsyncClient::get`
(src/lib.rs lines 327-343): the URL is the constant `API_URL`, the base
component is `BaseApiRequest { module, action, apikey }`, and the endpoint
component is the given params record. -/
def AsyncClient.get (c : AsyncClient) (module action : String) {α : Type}
    (params : α) : HttpGetRequest α :=
  { url := API_URL,
    base := { module := module, action := action, apikey := c.api_key },
    params := params }

/-- `Vec::join(",")` on a list of strings (std library call used at
src/lib.rs lines 363 and 503): the elements concatenated with a single
comma between adjacent elements. -/
def joinComma : List String → String
  | [] => ""
  | [a] => a
  | a :: b :: rest => a ++ "," ++ joinComma (b :: rest)

/-- `AsyncClient::get_balance_multi` (src/lib.rs lines 362-369). -/
def AsyncClient.get_balance_multi (c : AsyncClient) (addresses : List String) :
    HttpGetRequest AddressTagQuery :=
  c.get "account" "balancemulti"
    { address := joinComma addresses, tag := "latest" }

/-- `AsyncClient::contract_creation` (src/lib.rs lines 502-508). -/
def AsyncClient.contract_creation (c : AsyncClient)
    (contract_addresses : List String) : HttpGetRequest ContractAddressesQuery :=
  c.get "contract" "getsourcecode"
    { contractaddresses := joinComma contract_addresses }

/-- `AsyncClient::get_erc721_transfer_events` (src/lib.rs lines 426-437). -/
def AsyncClient.get_erc721_transfer_events (c : AsyncClient)
    (address contract_address : String)
    (start_block end_block page offset : Int) (sort : String) :
    HttpGetRequest TokenEventsPaginatedQuery :=
  c.get "account" "tokennfttx"
    { address := address, contractaddress := contract_address,
      startblock := start_block, endblock := end_block,
      page := page, offset := offset, sort := sort }

/-- `AsyncClient::get_erc1155_transfer_events` (src/lib.rs lines 439-450). -/
def AsyncClient.get_erc1155_transfer_events (c : AsyncClient)
    (address contract_address : String)
    (start_block end_block page offset : Int) (sort : String) :
    HttpGetRequest TokenEventsPaginatedQuery :=
  c.get "account" "tokennfttx"
    { address := address, contractaddress := contract_address,
      startblock := start_block, endblock := end_block,
      page := page, offset := offset, sort := sort }

/-- `AsyncClient::token_balance` (src/lib.rs lines 754-760); its `tag`
argument is accepted but not stored in the parameter record. -/
def AsyncClient.token_balance (c : AsyncClient)
    (contract_address address tag : String) :
    HttpGetRequest ContractByAddressQuery :=
  c.get "tokens" "tokenBalance"
    { address := address, contractaddress := contract_address }

/-- C5 (counterexample): at a concrete call the dispatcher's URL is the
mainnet constant, and the two test-network constants differ from it, so no
network-based selection among the three URLs occurs. -/
theorem c5_url_is_always_mainnet :
    (AsyncClient.get ⟨"key"⟩ "account" "balance"
      (AddressTagQuery.mk "0xde0b295669a9fd93d5f28d9ec85e40f4cb697bae" "latest")).url
      = API_URL ∧
    GOERLI_API_URL ≠ API_URL ∧ SEPOLIA_API_URL ≠ API_URL := by
  exact ⟨rfl, by decide, by decide⟩

/-- C5 (amended): every request is issued against the fixed mainnet base
URL `API_URL`, whatever the module, action, key or parameters; the Goerli
and Sepolia URL constants are distinct from it and are never selected by
the dispatcher. -/
theorem c5_fixed_base_url (c : AsyncClient) (module action : String)
    {α : Type} (params : α) :
    (c.get module action params).url = API_URL ∧
    GOERLI_API_URL ≠ API_URL ∧ SEPOLIA_API_URL ≠ API_URL := by
  exact ⟨rfl, by decide, by decide⟩

/-- C7: for every non-empty address list, the serialized `address` field of
`get_balance_multi` (resp. `contractaddresses` of `contract_creation`) is
the elements joined with a single comma between adjacent elements; a
one-element list yields that element with no comma, and
`["0xA", "0xB", "0xC"]` yields `"0xA,0xB,0xC"`. -/
theorem c7_multi_address_join (c : AsyncClient) (a : String) (rest : List String) :
    (c.get_balance_multi (a :: rest)).params.address = joinComma (a :: rest) ∧
    (c.contract_creation (a :: rest)).params.contractaddresses = joinComma (a :: rest) ∧
    (rest = [] → (c.get_balance_multi (a :: rest)).params.address = a) ∧
    (∀ b l, joinComma (a :: b :: l) = a ++ "," ++ joinComma (b :: l)) ∧
    (c.get_balance_multi ["0xA", "0xB", "0xC"]).params.address = "0xA,0xB,0xC" ∧
    (c.contract_creation ["0xA", "0xB", "0xC"]).params.contractaddresses = "0xA,0xB,0xC" := by
  refine ⟨rfl, rfl, fun h => ?_, fun b l => rfl, rfl, rfl⟩
  subst h; rfl

/-- C7 (witness): the join theorem applied at a concrete client and
concrete address lists. -/
theorem c7_multi_address_join_witness :
    (AsyncClient.get_balance_multi ⟨"key"⟩ ["0xabc"]).params.address = "0xabc" ∧
    (AsyncClient.get_balance_multi ⟨"key"⟩ ["0xA", "0xB", "0xC"]).params.address
      = "0xA,0xB,0xC" :=
  ⟨(c7_multi_address_join ⟨"key"⟩ "0xabc" []).2.2.1 rfl,
   (c7_multi_address_join ⟨"key"⟩ "0xabc" []).2.2.2.2.1⟩

/-- C9: for identical arguments, `get_erc721_transfer_events` and
`get_erc1155_transfer_events` construct the same request: same module
`"account"`, same action `"tokennfttx"`, identical
`TokenEventsPaginatedQuery` record. -/
theorem c9_erc721_eq_erc1155 (c : AsyncClient) (a ca : String)
    (sb eb pg off : Int) (s : String) :
    c.get_erc721_transfer_events a ca sb eb pg off s
      = c.get_erc1155_transfer_events a ca sb eb pg off s ∧
    (c.get_erc721_transfer_events a ca sb eb pg off s).base.module = "account" ∧
    (c.get_erc721_transfer_events a ca sb eb pg off s).base.action = "tokennfttx" ∧
    (c.get_erc721_transfer_events a ca sb eb pg off s).params
      = { address := a, contractaddress := ca, startblock := sb, endblock := eb,
          page := pg, offset := off, sort := s } :=
  ⟨rfl, rfl, rfl, rfl⟩

/-- C10: `token_balance` ignores its `tag` argument: for any two tag
values the constructed request is identical, with module `"tokens"`,
action `"tokenBalance"`, and a parameter record holding only
`address` and `contractaddress`. -/
theorem c10_token_balance_ignores_tag (c : AsyncClient) (ca a t1 t2 : String) :
    c.token_balance ca a t1 = c.token_balance ca a t2 ∧
    (c.token_balance ca a t1).base.module = "tokens" ∧
    (c.token_balance ca a t1).base.action = "tokenBalance" ∧
    (c.token_balance ca a t1).params
      = { address := a, contractaddress := ca } :=
  ⟨rfl, rfl, rfl, rfl⟩

/-! ## Serialized field names of every endpoint parameter struct (C6)

For each `#[derive(Serialize)]` struct the serialized keys are its field
names in declaration order; `EventLogTopicPaginatedQuery` serializes as a
keyless sequence, but its declared field names are included conservatively. -/

/-- Field names of `BaseApiRequest` (src/lib.rs lines 12-17). -/
def baseFieldNames : List String := ["module", "action", "apikey"]

/-- Every endpoint parameter struct of src/lib.rs (lines 21-300) with its
serialized field names in declaration order. -/
def endpointFieldNames : List (String × List String) :=
  [("AddressTagQuery", ["address", "tag"]),
   ("TxListPaginatedQuery", ["address", "startblock", "endblock", "page", "offset", "sort"]),
   ("TxHashQuery", ["txhash"]),
   ("BlockRangePaginatedQuery", ["startblock", "endblock", "page", "offset", "sort"]),
   ("TokenEventsPaginatedQuery", ["address", "contractaddress", "page", "offset", "startblock", "endblock", "sort"]),
   ("AddressBlocktypePaginatedQuery", ["address", "blocktype", "page", "offset", "sort"]),
   ("ContractByAddressBlockRangePaginatedQuery", ["address", "contractaddress", "page", "offset", "startblock", "endblock", "sort"]),
   ("AddressBlockNumberQuery", ["address", "blockno"]),
   ("AddressQuery", ["address"]),
   ("ContractAddressQuery", ["contractaddress"]),
   ("BlockNumberQuery", ["blockno"]),
   ("BlockTimestampQuery", ["timestamp", "closest"]),
   ("DateRangeQuery", ["startdate", "enddate", "sort"]),
   ("EventLogAddressPaginatedQuery", ["address", "fromblock", "toblock", "page", "offset"]),
   ("EventLogTopicPaginatedQuery", ["fromblock", "toblock", "topic0", "topic1", "topic2", "topic3", "topic0_1_opr", "topic1_2_opr", "topic2_3_opr", "page", "offset"]),
   ("BlockNumberBoolQuery", ["tag", "boolean"]),
   ("BlockNumberIndexQuery", ["tag", "index"]),
   ("BlockNumberHexQuery", ["tag"]),
   ("RawTxQuery", ["hex"]),
   ("CallQuery", ["to", "data", "tag"]),
   ("StoragePositionQuery", ["address", "position", "tag"]),
   ("EstimateGasQuery", ["data", "to", "value", "gas", "gasPrice"]),
   ("ContractAddressesQuery", ["contractaddresses"]),
   ("ContractByAddressQuery", ["address", "contractaddress"]),
   ("ContractByAddressPaginatedQuery", ["address", "contractaddress", "page", "offset"]),
   ("ContractByBlockNumberQuery", ["contractaddress", "blockno"]),
   ("ContractByAddressBlockNumberQuery", ["address", "contractaddress", "blockno"]),
   ("ContractAddressPaginatedQuery", ["contractaddress", "page", "offset"]),
   ("AddressPaginatedQuery", ["address", "page", "offset"]),
   ("GasPriceQuery", ["gasprice"]),
   ("BlockchainSizeQuery", ["startdate", "enddate", "clienttype", "syncmode", "sort"])]

/-- C6: no serialized field name of any endpoint parameter struct equals
any of the three base field names `module`, `action`, `apikey`, so merging
the base query component with any endpoint component never duplicates a
key. -/
theorem c6_no_field_collision :
    ∀ p ∈ endpointFieldNames, ∀ f ∈ p.2, f ∉ baseFieldNames := by
  decide

/-- C6 (witness): the collision-freedom theorem applied to a concrete
struct and field. -/
theorem c6_no_field_collision_witness :
    "address" ∉ baseFieldNames :=
  c6_no_field_collision ("AddressTagQuery", ["address", "tag"]) (by decide)
    "address" (by decide)

/-! ## Response envelope (C4)

`AsyncClient::get` parses the HTTP body as `ApiResponse` via serde's
derived `Deserialize` (src/lib.rs lines 305-309, 336-346) and returns
`Ok(response.result)`.  JSON bodies are modelled syntactically; the
derived deserializer reads the object's entries in order, fills `status`
and `result` (erroring on a duplicate or a non-string value), ignores
unknown keys, and errors if either field is missing at the end. -/

/-- A JSON value (the parsed HTTP body). -/
inductive Json where
  | str (s : String)
  | num (n : Int)
  | bool (b : Bool)
  | null
  | arr (xs : List Json)
  | obj (fields : List (String × Json))

/-- Whether a JSON value is an object. -/
def Json.isObj : Json → Bool
  | .obj _ => true
  | _ => false

/-- `struct ApiResponse` (src/lib.rs lines 305-309). -/
structure ApiResponse where
  status : String
  result : String
deriving DecidableEq, Repr

/-- Number of entries of an object's field list whose key equals `k`. -/
def countKey : List (String × Json) → String → Nat
  | [], _ => 0
  | p :: rest, k => (if p.1 = k then 1 else 0) + countKey rest k

/-- The field-reading loop of serde's derived `Deserialize` for
`ApiResponse`: scan the entries in order, record the `status` and `result`
string values (duplicate or non-string values are errors), ignore other
keys, and require both fields at the end. -/
def readApiResponseFields :
    List (String × Json) → Option String → Option String → Except String ApiResponse
  | [], st, res =>
    match st, res with
    | some s, some r => .ok ⟨s, r⟩
    | none, _ => .error "missing field status"
    | some _, none => .error "missing field result"
  | (k, v) :: rest, st, res =>
    if k = "status" then
      match st with
      | some _ => .error "duplicate field status"
      | none =>
        match v with
        | .str s => readApiResponseFields rest (some s) res
        | _ => .error "invalid type for field status"
    else if k = "result" then
      match res with
      | some _ => .error "duplicate field result"
      | none =>
        match v with
        | .str r => readApiResponseFields rest st (some r)
        | _ => .error "invalid type for field result"
    else readApiResponseFields rest st res

/-- `.json::<ApiResponse>()` on a parsed body. -/
def parseApiResponse : Json → Except String ApiResponse
  | .obj fields => readApiResponseFields fields none none
  | _ => .error "invalid type: expected object"

/-- The post-transport step of `AsyncClient::get` (src/lib.rs lines
336-346): deserialize the body as `ApiResponse` and return
`Ok(response.result)`. -/
def responseResult (body : Json) : Except String String :=
  (parseApiResponse body).map ApiResponse.result

theorem countKey_pos_of_mem {l : List (String × Json)} {k : String} {v : Json}
    (h : (k, v) ∈ l) : 0 < countKey l k := by
  induction l with
  | nil => cases h
  | cons p rest ih =>
    rcases List.mem_cons.mp h with h1 | h1
    · simp [countKey, ← h1]
    · have := ih h1
      simp [countKey]
      omega

theorem readApiResponseFields_ok :
    ∀ (fields : List (String × Json)) (st res : Option String) (s r : String),
    (match st with
     | none => countKey fields "status" = 1 ∧ ("status", Json.str s) ∈ fields
     | some x => x = s ∧ countKey fields "status" = 0) →
    (match res with
     | none => countKey fields "result" = 1 ∧ ("result", Json.str r) ∈ fields
     | some x => x = r ∧ countKey fields "result" = 0) →
    readApiResponseFields fields st res = .ok ⟨s, r⟩ := by
  intro fields
  induction fields with
  | nil =>
    intro st res s r hst hres
    cases st with
    | none => simp [countKey] at hst
    | some x =>
      cases res with
      | none => simp [countKey] at hres
      | some y =>
        obtain ⟨rfl, -⟩ := hst
        obtain ⟨rfl, -⟩ := hres
        rfl
  | cons p rest ih =>
    intro st res s r hst hres
    obtain ⟨k, v⟩ := p
    by_cases hk : k = "status"
    · subst hk
      cases st with
      | some x => simp [countKey] at hst
      | none =>
        obtain ⟨hcount, hmem⟩ := hst
        simp [countKey] at hcount
        rcases List.mem_cons.mp hmem with h1 | h1
        · have hv : v = Json.str s := by
            have := congrArg Prod.snd h1
            simpa using this.symm
          subst hv
          show readApiResponseFields rest (some s) res = _
          apply ih
          · simp [hcount]
          · cases res with
            | some y =>
              obtain ⟨rfl, hres0⟩ := hres
              refine ⟨rfl, ?_⟩
              simpa [countKey] using hres0
            | none =>
              obtain ⟨hrc, hrm⟩ := hres
              refine ⟨by simpa [countKey] using hrc, ?_⟩
              rcases List.mem_cons.mp hrm with h2 | h2
              · exact absurd (congrArg Prod.fst h2) (by simp)
              · exact h2
        · exact absurd (countKey_pos_of_mem h1) (by omega)
    · by_cases hk2 : k = "result"
      · subst hk2
        cases res with
        | some x => simp [countKey] at hres
        | none =>
          obtain ⟨hcount, hmem⟩ := hres
          simp [countKey] at hcount
          rcases List.mem_cons.mp hmem with h1 | h1
          · have hv : v = Json.str r := by
              have := congrArg Prod.snd h1
              simpa using this.symm
            subst hv
            show readApiResponseFields rest st (some r) = _
            apply ih
            · cases st with
              | some y =>
                obtain ⟨rfl, hst0⟩ := hst
                refine ⟨rfl, ?_⟩
                simpa [countKey, hk] using hst0
              | none =>
                obtain ⟨hsc, hsm⟩ := hst
                refine ⟨by simpa [countKey, hk] using hsc, ?_⟩
                rcases List.mem_cons.mp hsm with h2 | h2
                · exact absurd (congrArg Prod.fst h2) (by simp [hk])
                · exact h2
            · simp [hcount]
          · exact absurd (countKey_pos_of_mem h1) (by omega)
      · show readApiResponseFields ((k, v) :: rest) st res = _
        have hstep : readApiResponseFields ((k, v) :: rest) st res
            = readApiResponseFields rest st res := by
          simp [readApiResponseFields, hk, hk2]
        rw [hstep]
        apply ih
        · cases st with
          | some y =>
            obtain ⟨rfl, hst0⟩ := hst
            exact ⟨rfl, by simpa [countKey, hk] using hst0⟩
          | none =>
            obtain ⟨hsc, hsm⟩ := hst
            refine ⟨by simpa [countKey, hk] using hsc, ?_⟩
            rcases List.mem_cons.mp hsm with h2 | h2
            · exact absurd (congrArg Prod.fst h2) (fun hh => hk hh.symm)
            · exact h2
        · cases res with
          | some y =>
            obtain ⟨rfl, hres0⟩ := hres
            exact ⟨rfl, by simpa [countKey, hk2] using hres0⟩
          | none =>
            obtain ⟨hrc, hrm⟩ := hres
            refine ⟨by simpa [countKey, hk2] using hrc, ?_⟩
            rcases List.mem_cons.mp hrm with h2 | h2
            · exact absurd (congrArg Prod.fst h2) (fun hh => hk2 hh.symm)
            · exact h2

theorem readApiResponseFields_missing_result :
    ∀ (fields : List (String × Json)) (st : Option String),
    countKey fields "result" = 0 →
    ∃ e, readApiResponseFields fields st none = .error e := by
  intro fields
  induction fields with
  | nil =>
    intro st _
    cases st with
    | none => exact ⟨_, rfl⟩
    | some x => exact ⟨_, rfl⟩
  | cons p rest ih =>
    intro st hcount
    obtain ⟨k, v⟩ := p
    have hk2 : ¬ k = "result" := by
      intro h
      simp [countKey, h] at hcount
    have hrest : countKey rest "result" = 0 := by
      simpa [countKey, hk2] using hcount
    by_cases hk : k = "status"
    · subst hk
      cases st with
      | some x => exact ⟨_, rfl⟩
      | none =>
        cases v with
        | str s => exact ih (some s) hrest
        | num n => exact ⟨_, rfl⟩
        | bool b => exact ⟨_, rfl⟩
        | null => exact ⟨_, rfl⟩
        | arr xs => exact ⟨_, rfl⟩
        | obj fs => exact ⟨_, rfl⟩
    · have hstep : readApiResponseFields ((k, v) :: rest) st none
          = readApiResponseFields rest st none := by
        simp [readApiResponseFields, hk, hk2]
      rw [hstep]
      exact ih st hrest

/-- C4: if the body is a JSON object carrying exactly one `status` entry
and exactly one `result` entry, both strings, the call returns `Ok` with
the `result` string verbatim (in particular the returned value does not
depend on `status`); if the `result` field is absent, or the body is not
an object, the call returns a deserialization error, never a partial or
default value. -/
theorem c4_envelope_extraction (fields : List (String × Json)) (s r : String) :
    (countKey fields "status" = 1 → ("status", Json.str s) ∈ fields →
      countKey fields "result" = 1 → ("result", Json.str r) ∈ fields →
      responseResult (Json.obj fields) = .ok r) ∧
    (countKey fields "result" = 0 →
      ∃ e, responseResult (Json.obj fields) = .error e) ∧
    (∀ j : Json, j.isObj = false → ∃ e, responseResult j = .error e) := by
  refine ⟨fun h1 h2 h3 h4 => ?_, fun h => ?_, fun j hj => ?_⟩
  · have := readApiResponseFields_ok fields none none s r ⟨h1, h2⟩ ⟨h3, h4⟩
    simp [responseResult, parseApiResponse, this, Except.map]
  · obtain ⟨e, he⟩ := readApiResponseFields_missing_result fields none h
    exact ⟨e, by simp [responseResult, parseApiResponse, he, Except.map]⟩
  · cases j with
    | obj fs => simp [Json.isObj] at hj
    | str x => exact ⟨_, rfl⟩
    | num x => exact ⟨_, rfl⟩
    | bool x => exact ⟨_, rfl⟩
    | null => exact ⟨_, rfl⟩
    | arr x => exact ⟨_, rfl⟩

/-- C4 (witness): the envelope theorem at the concrete body
`{"status":"1","result":"12345"}` (returns `Ok "12345"`) and at a body
missing `result` (returns an error). -/
theorem c4_envelope_extraction_witness :
    responseResult (Json.obj [("status", Json.str "1"), ("result", Json.str "12345")])
      = .ok "12345" ∧
    (∃ e, responseResult (Json.obj [("status", Json.str "1")]) = .error e) :=
  ⟨(c4_envelope_extraction
      [("status", Json.str "1"), ("result", Json.str "12345")] "1" "12345").1
      (by decide) (List.Mem.head _) (by decide)
      (List.Mem.tail _ (List.Mem.head _)),
   (c4_envelope_extraction [("status", Json.str "1")] "1" "").2.1 (by decide)⟩

/-! ## Hex-tag formatting (C8)

The proxy endpoint methods convert integer arguments with
`format!("0x{:x}", n)` (src/lib.rs lines 652, 660-661, 675-676, 737-739,
829): `"0x"` followed by the lowercase hexadecimal digits of `n`, most
significant first, without leading zeros (`0` prints as `"0"`). -/

/-- The lowercase hex digit table used by `{:x}`. -/
def hexDigitChar : Nat → Char
  | 0 => '0' | 1 => '1' | 2 => '2' | 3 => '3'
  | 4 => '4' | 5 => '5' | 6 => '6' | 7 => '7'
  | 8 => '8' | 9 => '9' | 10 => 'a' | 11 => 'b'
  | 12 => 'c' | 13 => 'd' | 14 => 'e' | 15 => 'f'
  | _ => '*'

/-- Digit-extraction loop for `{:x}`, fuelled so that it is structurally
recursive (`n + 1` units of fuel always suffice since `n / 16 < n`). -/
def hexDigitsAux : Nat → Nat → List Char → List Char
  | 0, _, acc => acc
  | fuel + 1, n, acc =>
    if n < 16 then hexDigitChar n :: acc
    else hexDigitsAux fuel (n / 16) (hexDigitChar (n % 16) :: acc)

/-- The lowercase hex digits of `n`, most significant first, as printed by
`{:x}` (no leading zeros; `0` prints as `"0"`). -/
def hexDigits (n : Nat) : List Char := hexDigitsAux (n + 1) n []

/-- `format!("0x{:x}", n)`. -/
def hexTag (n : Nat) : String := "0x" ++ String.mk (hexDigits n)

/-- Numeric value of one lowercase hex digit. -/
def hexCharVal (c : Char) : Nat :=
  if 97 ≤ c.toNat then c.toNat - 87 else c.toNat - 48

/-- Value of a big-endian hex digit list. -/
def hexVal (cs : List Char) : Nat :=
  cs.foldl (fun a c => 16 * a + hexCharVal c) 0

/-- Whether a character is a lowercase hexadecimal digit (`0-9a-f`). -/
def isHexLowerChar (c : Char) : Bool :=
  (48 ≤ c.toNat && c.toNat ≤ 57) || (97 ≤ c.toNat && c.toNat ≤ 102)

theorem hexDigitsAux_acc (fuel : Nat) :
    ∀ (n : Nat) (acc : List Char),
      hexDigitsAux fuel n acc = hexDigitsAux fuel n [] ++ acc := by
  induction fuel with
  | zero => intro n acc; rfl
  | succ fuel ih =>
    intro n acc
    by_cases h : n < 16
    · simp [hexDigitsAux, h]
    · simp only [hexDigitsAux, if_neg h]
      rw [ih (n / 16) (hexDigitChar (n % 16) :: acc),
        ih (n / 16) [hexDigitChar (n % 16)], List.append_assoc]
      rfl

theorem hexDigitsAux_fuel (f₁ : Nat) :
    ∀ (n : Nat) (acc : List Char) (f₂ : Nat), n < f₁ → n < f₂ →
      hexDigitsAux f₁ n acc = hexDigitsAux f₂ n acc := by
  induction f₁ with
  | zero => intro n acc f₂ h₁ _; omega
  | succ f₁ ih =>
    intro n acc f₂ h₁ h₂
    cases f₂ with
    | zero => omega
    | succ f₂ =>
      by_cases h : n < 16
      · simp [hexDigitsAux, h]
      · simp only [hexDigitsAux, if_neg h]
        have hdiv : n / 16 < n := Nat.div_lt_self (by omega) (by omega)
        exact ih (n / 16) _ f₂ (by omega) (by omega)

theorem hexDigits_lt {n : Nat} (h : n < 16) : hexDigits n = [hexDigitChar n] := by
  simp [hexDigits, hexDigitsAux, h]

theorem hexDigits_ge {n : Nat} (h : 16 ≤ n) :
    hexDigits n = hexDigits (n / 16) ++ [hexDigitChar (n % 16)] := by
  have hdiv : n / 16 < n := Nat.div_lt_self (by omega) (by omega)
  show hexDigitsAux (n + 1) n [] = _
  rw [show hexDigitsAux (n + 1) n [] =
      hexDigitsAux n (n / 16) [hexDigitChar (n % 16)] by
    simp [hexDigitsAux, Nat.not_lt.mpr h]]
  rw [hexDigitsAux_acc n (n / 16) [hexDigitChar (n % 16)],
    hexDigitsAux_fuel n (n / 16) [] (n / 16 + 1) (by omega) (by omega)]
  rfl

theorem hexVal_append_digit (l : List Char) (c : Char) :
    hexVal (l ++ [c]) = 16 * hexVal l + hexCharVal c := by
  simp [hexVal, List.foldl_append]

theorem hexCharVal_hexDigitChar : ∀ d < 16, hexCharVal (hexDigitChar d) = d := by
  decide

theorem hexDigitChar_ne_zero_char : ∀ d < 16, d ≠ 0 → hexDigitChar d ≠ '0' := by
  decide

theorem isHexLowerChar_hexDigitChar : ∀ d < 16, isHexLowerChar (hexDigitChar d) = true := by
  decide

theorem hexVal_hexDigits (n : Nat) : hexVal (hexDigits n) = n := by
  induction n using Nat.strong_induction_on with
  | _ n ih =>
    by_cases h : n < 16
    · rw [hexDigits_lt h]
      simpa [hexVal] using hexCharVal_hexDigitChar n h
    · have h16 : 16 ≤ n := by omega
      have hdiv : n / 16 < n := Nat.div_lt_self (by omega) (by omega)
      rw [hexDigits_ge h16, hexVal_append_digit, ih (n / 16) hdiv,
        hexCharVal_hexDigitChar (n % 16) (Nat.mod_lt n (by omega))]
      omega

theorem hexDigits_ne_nil (n : Nat) : hexDigits n ≠ [] := by
  by_cases h : n < 16
  · rw [hexDigits_lt h]; simp
  · rw [hexDigits_ge (by omega)]; simp

theorem hexDigits_head_ne_zero (n : Nat) (hn : n ≠ 0) :
    (hexDigits n).head? ≠ some '0' := by
  induction n using Nat.strong_induction_on with
  | _ n ih =>
    by_cases h : n < 16
    · rw [hexDigits_lt h]
      simpa using hexDigitChar_ne_zero_char n h hn
    · have h16 : 16 ≤ n := by omega
      have hdiv : n / 16 < n := Nat.div_lt_self (by omega) (by omega)
      have hdn : n / 16 ≠ 0 := by
        have : 1 ≤ n / 16 := Nat.le_div_iff_mul_le (by omega) |>.mpr (by omega)
        omega
      rw [hexDigits_ge h16]
      obtain ⟨a, t, hat⟩ := List.exists_cons_of_ne_nil (hexDigits_ne_nil (n / 16))
      have := ih (n / 16) hdiv hdn
      rw [hat] at this ⊢
      simpa using this

theorem hexDigits_all_hex (n : Nat) :
    ∀ c ∈ hexDigits n, isHexLowerChar c = true := by
  induction n using Nat.strong_induction_on with
  | _ n ih =>
    intro c hc
    by_cases h : n < 16
    · rw [hexDigits_lt h] at hc
      simp at hc
      subst hc
      exact isHexLowerChar_hexDigitChar n h
    · have h16 : 16 ≤ n := by omega
      have hdiv : n / 16 < n := Nat.div_lt_self (by omega) (by omega)
      rw [hexDigits_ge h16] at hc
      rcases List.mem_append.mp hc with h1 | h1
      · exact ih (n / 16) hdiv c h1
      · simp at h1
        subst h1
        exact isHexLowerChar_hexDigitChar (n % 16) (Nat.mod_lt n (by omega))

/-- C8: the hex-tag conversion maps `255` to `"0xff"` and `0` to `"0x0"`,
and for every 64-bit `n` it produces `"0x"` followed by the lowercase hex
digits of `n`: the digit string is non-empty, consists only of `0-9a-f`,
evaluates back to `n`, and has no leading zero unless `n = 0`. -/
theorem c8_hex_tag (n : Nat) (h : n < 2 ^ 64) :
    hexTag 255 = "0xff" ∧ hexTag 0 = "0x0" ∧
    hexTag n = "0x" ++ String.mk (hexDigits n) ∧
    hexVal (hexDigits n) = n ∧
    hexDigits n ≠ [] ∧
    (∀ c ∈ hexDigits n, isHexLowerChar c = true) ∧
    (n ≠ 0 → (hexDigits n).head? ≠ some '0') :=
  ⟨by decide, by decide, rfl, hexVal_hexDigits n, hexDigits_ne_nil n,
   hexDigits_all_hex n, hexDigits_head_ne_zero n⟩

/-- C8 (witness): the hex-tag theorem at `n = 255`. -/
theorem c8_hex_tag_witness :
    (255 : Nat) < 2 ^ 64 ∧ hexTag 255 = "0xff" ∧
    (hexDigits 255).head? ≠ some '0' :=
  ⟨by norm_num,
   (c8_hex_tag 255 (by norm_num)).1,
   (c8_hex_tag 255 (by norm_num)).2.2.2.2.2.2 (by norm_num)⟩

end Etherscan
